import Mathlib

/-!
Verification development for the `procast` repository
(`src/procast/card_generator.py`, `extractor.py`, `config.py`,
`transcriber.py`, `cli.py`).

Python text is modelled as `List Char`; `font.getbbox` rendered widths are
modelled by an abstract width function `w : List Char → Nat`; Python floats
(quote scores, timestamps) are modelled as `Rat`; file-system writes are
modelled as explicit lists of write actions.
-/

namespace Procast

/-- `'一' <= char <= '鿿'`, the CJK test in `CardGenerator._wrap_text`. -/
def isCJK (c : Char) : Bool := decide (0x4e00 ≤ c.toNat) && decide (c.toNat ≤ 0x9fff)

/-- `any('一' <= char <= '鿿' for char in text)`. -/
def hasCJK (t : List Char) : Bool := t.any isCJK

/-- The CJK branch of `CardGenerator._wrap_text`: the `for char in text`
loop carrying the accumulated `lines` and `current_line`, followed by the
final `if current_line: lines.append(current_line)` flush. -/
def wrapCJK (w : List Char → Nat) (maxW : Nat) :
    List Char → List (List Char) → List Char → List (List Char)
  | [], lines, cur => if cur = [] then lines else lines ++ [cur]
  | c :: cs, lines, cur =>
    if w (cur ++ [c]) ≤ maxW then
      wrapCJK w maxW cs lines (cur ++ [c])
    else if cur = [] then
      wrapCJK w maxW cs lines [c]
    else
      wrapCJK w maxW cs (lines ++ [cur]) [c]

/-- The non-CJK branch of `CardGenerator._wrap_text`: the `for word in words`
loop (`test_line = current_line + " " + word if current_line else word`)
with the final flush. -/
def wrapWords (w : List Char → Nat) (maxW : Nat) :
    List (List Char) → List (List Char) → List Char → List (List Char)
  | [], lines, cur => if cur = [] then lines else lines ++ [cur]
  | wd :: ws, lines, cur =>
    if w (if cur = [] then wd else cur ++ ' ' :: wd) ≤ maxW then
      wrapWords w maxW ws lines (if cur = [] then wd else cur ++ ' ' :: wd)
    else if cur = [] then
      wrapWords w maxW ws lines wd
    else
      wrapWords w maxW ws (lines ++ [cur]) wd

/-- Python `str.split()`: split on runs of whitespace, discarding empties.
`acc` holds the current word's characters in reverse. -/
def pySplitAux : List Char → List Char → List (List Char)
  | [], acc => if acc = [] then [] else [acc.reverse]
  | c :: cs, acc =>
    if c.isWhitespace then
      if acc = [] then pySplitAux cs [] else acc.reverse :: pySplitAux cs []
    else
      pySplitAux cs (c :: acc)

/-- `text.split()` in the non-CJK branch of `_wrap_text`. -/
def pySplit (t : List Char) : List (List Char) := pySplitAux t []

/-- `CardGenerator._wrap_text`: dispatch on whether the text contains a CJK
character, then wrap greedily against `max_width`. -/
def wrap_text (w : List Char → Nat) (maxW : Nat) (t : List Char) : List (List Char) :=
  if hasCJK t then wrapCJK w maxW t [] []
  else wrapWords w maxW (pySplit t) [] []

/-- Python `" ".join` on character-list words (used to state content
preservation of the non-CJK branch). -/
def joinSp : List (List Char) → List Char
  | [] => []
  | [x] => x
  | x :: y :: t => x ++ ' ' :: joinSp (y :: t)

theorem take_one_append {α : Type} (x : List α) (h : x ≠ []) (y : List α) :
    (x ++ y).take 1 = x.take 1 := by
  cases x with
  | nil => exact absurd rfl h
  | cons a t => simp

theorem chain'_concat_congr {α : Type} {R : α → α → Prop} {l : List α} {x y : α}
    (h : ∀ z, R z x → R z y) (hch : List.Chain' R (l ++ [x])) :
    List.Chain' R (l ++ [y]) := by
  rw [List.chain'_append] at hch ⊢
  refine ⟨hch.1, List.chain'_singleton y, ?_⟩
  intro a ha b hb
  simp only [List.head?_cons, Option.mem_def, Option.some.injEq] at hb
  subst hb
  exact h a (hch.2.2 a ha x (by simp))

theorem wrapCJK_mem (w : List Char → Nat) (maxW : Nat) :
    ∀ (cs : List Char) (lines : List (List Char)) (cur : List Char),
      (∀ l ∈ lines, w l ≤ maxW ∨ l.length = 1) →
      (cur = [] ∨ w cur ≤ maxW ∨ cur.length = 1) →
      ∀ l ∈ wrapCJK w maxW cs lines cur, w l ≤ maxW ∨ l.length = 1 := by
  intro cs
  induction cs with
  | nil =>
    intro lines cur hl hc l hmem
    by_cases h : cur = [] <;> simp only [wrapCJK, h, if_true, if_false] at hmem
    · exact hl l hmem
    · rcases List.mem_append.1 hmem with hm | hm
      · exact hl l hm
      · rcases List.mem_singleton.1 hm with rfl
        rcases hc with rfl | hc
        · exact absurd rfl h
        · exact hc
  | cons c cs ih =>
    intro lines cur hl hc l hmem
    by_cases hfit : w (cur ++ [c]) ≤ maxW
    · simp only [wrapCJK, if_pos hfit] at hmem
      exact ih lines (cur ++ [c]) hl (Or.inr (Or.inl hfit)) l hmem
    · simp only [wrapCJK, if_neg hfit] at hmem
      by_cases h : cur = [] <;>
        simp only [h, if_true, if_false] at hmem
      · exact ih lines [c] hl (Or.inr (Or.inr rfl)) l hmem
      · refine ih (lines ++ [cur]) [c] ?_ (Or.inr (Or.inr rfl)) l hmem
        intro l2 hl2
        rcases List.mem_append.1 hl2 with hm | hm
        · exact hl l2 hm
        · rcases List.mem_singleton.1 hm with rfl
          rcases hc with rfl | hc
          · exact absurd rfl h
          · exact hc

theorem wrapCJK_chain (w : List Char → Nat) (maxW : Nat) :
    ∀ (cs : List Char) (lines : List (List Char)) (cur : List Char),
      (cur = [] → lines = []) →
      List.Chain' (fun l l2 => maxW < w (l ++ l2.take 1)) (lines ++ [cur]) →
      List.Chain' (fun l l2 => maxW < w (l ++ l2.take 1)) (wrapCJK w maxW cs lines cur) := by
  intro cs
  induction cs with
  | nil =>
    intro lines cur h0 hch
    by_cases h : cur = [] <;> simp only [wrapCJK, h, if_true, if_false]
    · rw [h0 h]; exact List.chain'_nil
    · exact hch
  | cons c cs ih =>
    intro lines cur h0 hch
    by_cases hfit : w (cur ++ [c]) ≤ maxW
    · simp only [wrapCJK, if_pos hfit]
      by_cases h : cur = []
      · subst h
        rw [h0 rfl]
        refine ih [] [c] (by simp) ?_
        simp [List.chain'_singleton]
      · refine ih lines (cur ++ [c]) (by simp [h]) ?_
        refine chain'_concat_congr (fun z hz => ?_) hch
        rw [take_one_append cur h [c]]
        exact hz
    · simp only [wrapCJK, if_neg hfit]
      by_cases h : cur = []
      · simp only [h, if_true]
        rw [h0 h]
        refine ih [] [c] (by simp) ?_
        simp [List.chain'_singleton]
      · simp only [h, if_false]
        refine ih (lines ++ [cur]) [c] (by simp) ?_
        rw [List.chain'_append]
        refine ⟨hch, List.chain'_singleton _, ?_⟩
        intro a ha b hb
        have ha2 : cur = a := by
          rw [List.getLast?_concat] at ha
          simpa using ha
        have hb2 : [c] = b := by simpa using hb
        subst ha2; subst hb2
        simpa using Nat.lt_of_not_le hfit

theorem wrapWords_mem (w : List Char → Nat) (maxW : Nat) (U : List Char → Prop) :
    ∀ (ws lines : List (List Char)) (cur : List Char),
      (∀ wd ∈ ws, U wd) →
      (∀ l ∈ lines, w l ≤ maxW ∨ U l) →
      (cur = [] ∨ w cur ≤ maxW ∨ U cur) →
      ∀ l ∈ wrapWords w maxW ws lines cur, w l ≤ maxW ∨ U l := by
  intro ws
  induction ws with
  | nil =>
    intro lines cur _ hl hc l hmem
    by_cases h : cur = [] <;> simp only [wrapWords, h, if_true, if_false] at hmem
    · exact hl l hmem
    · rcases List.mem_append.1 hmem with hm | hm
      · exact hl l hm
      · rcases List.mem_singleton.1 hm with rfl
        rcases hc with rfl | hc
        · exact absurd rfl h
        · exact hc
  | cons wd ws ih =>
    intro lines cur hws hl hc l hmem
    have hwd : U wd := hws wd (by simp)
    have hws2 : ∀ x ∈ ws, U x := fun x hx => hws x (by simp [hx])
    by_cases hfit : w (if cur = [] then wd else cur ++ ' ' :: wd) ≤ maxW
    · simp only [wrapWords, if_pos hfit] at hmem
      exact ih lines _ hws2 hl (Or.inr (Or.inl hfit)) l hmem
    · simp only [wrapWords, if_neg hfit] at hmem
      by_cases h : cur = [] <;> simp only [h, if_true, if_false] at hmem
      · exact ih lines wd hws2 hl (Or.inr (Or.inr hwd)) l hmem
      · refine ih (lines ++ [cur]) wd hws2 ?_ (Or.inr (Or.inr hwd)) l hmem
        intro l2 hl2
        rcases List.mem_append.1 hl2 with hm | hm
        · exact hl l2 hm
        · rcases List.mem_singleton.1 hm with rfl
          rcases hc with rfl | hc
          · exact absurd rfl h
          · exact hc

theorem firstTok_extend (wd : List Char) :
    ∀ cur : List Char, cur ≠ [] →
      (cur ++ ' ' :: wd).takeWhile (fun c => c != ' ') =
        cur.takeWhile (fun c => c != ' ') := by
  intro cur
  induction cur with
  | nil => intro h; exact absurd rfl h
  | cons a t ih =>
    intro _
    rw [List.cons_append, List.takeWhile_cons, List.takeWhile_cons]
    by_cases hp : (a != ' ') = true
    · rw [if_pos hp, if_pos hp]
      by_cases ht : t = []
      · subst ht
        simp
      · rw [ih ht]
    · rw [if_neg hp, if_neg hp]

theorem wrapWords_chain (w : List Char → Nat) (maxW : Nat) :
    ∀ (ws lines : List (List Char)) (cur : List Char),
      (∀ wd ∈ ws, wd.takeWhile (fun c => c != ' ') = wd) →
      (∀ wd ∈ ws, wd ≠ []) →
      (cur = [] → lines = []) →
      List.Chain' (fun l l2 => maxW < w (l ++ ' ' :: l2.takeWhile (fun c => c != ' ')))
        (lines ++ [cur]) →
      List.Chain' (fun l l2 => maxW < w (l ++ ' ' :: l2.takeWhile (fun c => c != ' ')))
        (wrapWords w maxW ws lines cur) := by
  intro ws
  induction ws with
  | nil =>
    intro lines cur _ _ h0 hch
    by_cases h : cur = [] <;> simp only [wrapWords, h, if_true, if_false]
    · rw [h0 h]; exact List.chain'_nil
    · exact hch
  | cons wd ws ih =>
    intro lines cur hws hne h0 hch
    have hwd : wd.takeWhile (fun c => c != ' ') = wd := hws wd (by simp)
    have hwdne : wd ≠ [] := hne wd (by simp)
    have hws2 : ∀ x ∈ ws, x.takeWhile (fun c => c != ' ') = x :=
      fun x hx => hws x (by simp [hx])
    have hne2 : ∀ x ∈ ws, x ≠ [] := fun x hx => hne x (by simp [hx])
    by_cases hfit : w (if cur = [] then wd else cur ++ ' ' :: wd) ≤ maxW
    · simp only [wrapWords, if_pos hfit]
      by_cases h : cur = []
      · simp only [h, if_true]
        rw [h0 h]
        refine ih [] wd hws2 hne2 (fun _ => rfl) ?_
        simp
      · simp only [h, if_false]
        refine ih lines (cur ++ ' ' :: wd) hws2 hne2 (by simp [h]) ?_
        refine chain'_concat_congr (fun z hz => ?_) hch
        rw [firstTok_extend wd cur h]
        exact hz
    · simp only [wrapWords, if_neg hfit]
      by_cases h : cur = []
      · simp only [h, if_true]
        rw [h0 h]
        refine ih [] wd hws2 hne2 (fun _ => rfl) ?_
        simp
      · simp only [h, if_false]
        refine ih (lines ++ [cur]) wd hws2 hne2 (fun hc => absurd hc hwdne) ?_
        rw [List.chain'_append]
        refine ⟨hch, List.chain'_singleton _, ?_⟩
        intro a ha b hb
        have ha2 : cur = a := by
          rw [List.getLast?_concat] at ha
          simpa using ha
        have hb2 : wd = b := by simpa using hb
        subst ha2; subst hb2
        rw [hwd]
        rw [if_neg h] at hfit
        exact Nat.lt_of_not_le hfit

theorem pySplitAux_ne_nil :
    ∀ (cs acc : List Char), ∀ wd ∈ pySplitAux cs acc, wd ≠ [] := by
  intro cs
  induction cs with
  | nil =>
    intro acc wd hmem
    by_cases h : acc = [] <;> simp only [pySplitAux, h, if_true, if_false] at hmem
    · exact absurd hmem (List.not_mem_nil wd)
    · rcases List.mem_singleton.1 hmem with rfl
      simpa using h
  | cons c cs ih =>
    intro acc wd hmem
    by_cases hws : c.isWhitespace = true
    · simp only [pySplitAux, hws, if_true] at hmem
      by_cases h : acc = [] <;> simp only [h, if_true, if_false] at hmem
      · exact ih [] wd hmem
      · rcases List.mem_cons.1 hmem with rfl | hm
        · simpa using h
        · exact ih [] wd hm
    · simp only [pySplitAux, hws, if_false] at hmem
      exact ih (c :: acc) wd hmem

theorem pySplit_ne_nil (t : List Char) : ∀ wd ∈ pySplit t, wd ≠ [] :=
  pySplitAux_ne_nil t []

theorem pySplitAux_no_ws :
    ∀ (cs acc : List Char), (∀ c ∈ acc, c.isWhitespace = false) →
      ∀ wd ∈ pySplitAux cs acc, ∀ c ∈ wd, c.isWhitespace = false := by
  intro cs
  induction cs with
  | nil =>
    intro acc hacc wd hmem
    by_cases h : acc = [] <;> simp only [pySplitAux, h, if_true, if_false] at hmem
    · exact absurd hmem (List.not_mem_nil wd)
    · rcases List.mem_singleton.1 hmem with rfl
      intro c hc
      exact hacc c (List.mem_reverse.1 hc)
  | cons c cs ih =>
    intro acc hacc wd hmem
    by_cases hws : c.isWhitespace = true
    · simp only [pySplitAux, hws, if_true] at hmem
      by_cases h : acc = [] <;> simp only [h, if_true, if_false] at hmem
      · exact ih [] (by simp) wd hmem
      · rcases List.mem_cons.1 hmem with rfl | hm
        · intro c2 hc2
          exact hacc c2 (List.mem_reverse.1 hc2)
        · exact ih [] (by simp) wd hm
    · simp only [pySplitAux, hws, if_false] at hmem
      refine ih (c :: acc) ?_ wd hmem
      intro c2 hc2
      rcases List.mem_cons.1 hc2 with rfl | hm
      · simpa using hws
      · exact hacc c2 hm

theorem takeWhile_eq_self_of_no_space (l : List Char)
    (h : ∀ c ∈ l, c.isWhitespace = false) :
    l.takeWhile (fun c => c != ' ') = l := by
  induction l with
  | nil => rfl
  | cons a t ih =>
    rw [List.takeWhile_cons, if_pos]
    · rw [ih (fun c hc => h c (by simp [hc]))]
    · have ha : a.isWhitespace = false := h a (by simp)
      simp only [bne_iff_ne, ne_eq]
      intro hcontra
      rw [hcontra] at ha
      simp [Char.isWhitespace] at ha

theorem pySplit_no_space (t : List Char) :
    ∀ wd ∈ pySplit t, wd.takeWhile (fun c => c != ' ') = wd := by
  intro wd hwd
  exact takeWhile_eq_self_of_no_space wd (pySplitAux_no_ws t [] (by simp) wd hwd)

/-- **C1**: every line produced by `CardGenerator._wrap_text` either renders
within `max_width`, or is a single unit (one character for CJK text, one
whitespace-delimited word otherwise) that alone exceeds `max_width`; and a
unit starts a new line only because appending it to the previous line would
have exceeded `max_width` (the `Chain'` conjunct: each emitted line together
with the first unit of the following line renders wider than `max_width`). -/
theorem C1_wrap_text_greedy (w : List Char → Nat) (maxW : Nat) (t : List Char)
    (_hpos : 0 < maxW) :
    (∀ l ∈ wrap_text w maxW t,
        w l ≤ maxW ∨
          ((if hasCJK t = true then l.length = 1 else l ∈ pySplit t) ∧ maxW < w l)) ∧
    List.Chain'
      (fun l l2 =>
        maxW <
          w (l ++ (if hasCJK t = true then l2.take 1
                   else ' ' :: l2.takeWhile (fun c => c != ' '))))
      (wrap_text w maxW t) := by
  by_cases h : hasCJK t = true
  · constructor
    · intro l hl
      rw [wrap_text, if_pos h] at hl
      rcases wrapCJK_mem w maxW t [] [] (by simp) (Or.inl rfl) l hl with h1 | h2
      · exact Or.inl h1
      · by_cases hw : w l ≤ maxW
        · exact Or.inl hw
        · exact Or.inr ⟨by rw [if_pos h]; exact h2, Nat.lt_of_not_le hw⟩
    · rw [wrap_text, if_pos h]
      have hch := wrapCJK_chain w maxW t [] [] (fun _ => rfl) (by simp)
      refine List.Chain'.imp ?_ hch
      intro a b hab
      rw [if_pos h]
      exact hab
  · have hb : hasCJK t = false := by simpa using h
    constructor
    · intro l hl
      rw [wrap_text] at hl
      rw [hb] at hl
      simp only [Bool.false_eq_true, if_false] at hl
      rcases wrapWords_mem w maxW (fun x => x ∈ pySplit t) (pySplit t) [] []
          (fun _ hx => hx) (by simp) (Or.inl rfl) l hl with h1 | h2
      · exact Or.inl h1
      · by_cases hw : w l ≤ maxW
        · exact Or.inl hw
        · exact Or.inr ⟨by rw [if_neg (by simp [hb])]; exact h2, Nat.lt_of_not_le hw⟩
    · rw [wrap_text]
      rw [hb]
      simp only [Bool.false_eq_true, if_false]
      have hch := wrapWords_chain w maxW (pySplit t) [] []
          (pySplit_no_space t) (pySplit_ne_nil t) (fun _ => rfl) (by simp)
      refine List.Chain'.imp ?_ hch
      intro a b hab
      exact hab

/-- Witness for C1 at a concrete width function, width bound, and both a CJK
and a non-CJK input. -/
theorem C1_wrap_text_greedy_witness :
    ((∀ l ∈ wrap_text (fun l => 10 * l.length) 25 "你好世界".toList,
        (fun l => 10 * l.length) l ≤ 25 ∨
          ((if hasCJK "你好世界".toList = true then l.length = 1
            else l ∈ pySplit "你好世界".toList) ∧ 25 < (fun l => 10 * l.length) l)) ∧
      List.Chain'
        (fun l l2 =>
          25 <
            (fun l => 10 * l.length)
              (l ++ (if hasCJK "你好世界".toList = true then l2.take 1
                     else ' ' :: l2.takeWhile (fun c => c != ' '))))
        (wrap_text (fun l => 10 * l.length) 25 "你好世界".toList)) ∧
    ((∀ l ∈ wrap_text (fun l => 10 * l.length) 25 "ab cd efghij".toList,
        (fun l => 10 * l.length) l ≤ 25 ∨
          ((if hasCJK "ab cd efghij".toList = true then l.length = 1
            else l ∈ pySplit "ab cd efghij".toList) ∧ 25 < (fun l => 10 * l.length) l)) ∧
      List.Chain'
        (fun l l2 =>
          25 <
            (fun l => 10 * l.length)
              (l ++ (if hasCJK "ab cd efghij".toList = true then l2.take 1
                     else ' ' :: l2.takeWhile (fun c => c != ' '))))
        (wrap_text (fun l => 10 * l.length) 25 "ab cd efghij".toList)) :=
  ⟨C1_wrap_text_greedy (fun l => 10 * l.length) 25 "你好世界".toList (by decide),
   C1_wrap_text_greedy (fun l => 10 * l.length) 25 "ab cd efghij".toList (by decide)⟩

theorem wrapCJK_flatten (w : List Char → Nat) (maxW : Nat) :
    ∀ (cs : List Char) (lines : List (List Char)) (cur : List Char),
      (wrapCJK w maxW cs lines cur).flatten = lines.flatten ++ cur ++ cs := by
  intro cs
  induction cs with
  | nil =>
    intro lines cur
    by_cases h : cur = [] <;> simp [wrapCJK, h]
  | cons c cs ih =>
    intro lines cur
    by_cases hfit : w (cur ++ [c]) ≤ maxW
    · simp only [wrapCJK, if_pos hfit]
      rw [ih]
      simp
    · simp only [wrapCJK, if_neg hfit]
      by_cases h : cur = [] <;> simp only [h, if_true, if_false]
      · rw [ih]; simp [h]
      · rw [ih]; simp

theorem joinSp_cons_ne (x : List Char) (l : List (List Char)) (h : l ≠ []) :
    joinSp (x :: l) = x ++ ' ' :: joinSp l := by
  cases l with
  | nil => exact absurd rfl h
  | cons y t => rfl

theorem joinSp_mid (a : List (List Char)) (x y : List Char) (b : List (List Char)) :
    joinSp (a ++ (x ++ ' ' :: y) :: b) = joinSp (a ++ x :: y :: b) := by
  induction a with
  | nil =>
    simp only [List.nil_append]
    cases b with
    | nil => simp [joinSp]
    | cons z bt =>
      rw [joinSp_cons_ne _ _ (by simp), joinSp_cons_ne x _ (by simp),
        joinSp_cons_ne y _ (by simp)]
      simp
  | cons hd tl ih =>
    rw [List.cons_append, List.cons_append,
      joinSp_cons_ne hd _ (by simp), joinSp_cons_ne hd _ (by simp), ih]

theorem wrapWords_joinSp (w : List Char → Nat) (maxW : Nat) :
    ∀ (ws lines : List (List Char)) (cur : List Char),
      (∀ wd ∈ ws, wd ≠ []) →
      joinSp (wrapWords w maxW ws lines cur) =
        joinSp (lines ++ (if cur = [] then [] else [cur]) ++ ws) := by
  intro ws
  induction ws with
  | nil =>
    intro lines cur _
    by_cases h : cur = [] <;> simp [wrapWords, h]
  | cons wd ws ih =>
    intro lines cur hne
    have hwdne : wd ≠ [] := hne wd (by simp)
    have hne2 : ∀ x ∈ ws, x ≠ [] := fun x hx => hne x (by simp [hx])
    by_cases hfit : w (if cur = [] then wd else cur ++ ' ' :: wd) ≤ maxW
    · simp only [wrapWords, if_pos hfit]
      by_cases h : cur = []
      · simp only [h, if_true]
        rw [ih lines wd hne2, if_neg hwdne]
        simp
      · simp only [h, if_false]
        rw [ih lines (cur ++ ' ' :: wd) hne2, if_neg (by simp)]
        simpa using joinSp_mid lines cur wd ws
    · simp only [wrapWords, if_neg hfit]
      by_cases h : cur = []
      · simp only [h, if_true]
        rw [ih lines wd hne2, if_neg hwdne]
        simp
      · simp only [h, if_false]
        rw [ih (lines ++ [cur]) wd hne2, if_neg hwdne]
        simp

/-- **C2**: wrapping never loses or duplicates content: for CJK text the
lines concatenate back to the original text; for non-CJK text the lines
joined with single spaces equal the whitespace-split words joined with
single spaces. -/
theorem C2_wrap_text_content (w : List Char → Nat) (maxW : Nat) (t : List Char) :
    (hasCJK t = true → (wrap_text w maxW t).flatten = t) ∧
    (hasCJK t = false → joinSp (wrap_text w maxW t) = joinSp (pySplit t)) := by
  constructor
  · intro h
    rw [wrap_text, if_pos h, wrapCJK_flatten]
    simp
  · intro h
    rw [wrap_text, if_neg (by simp [h]),
      wrapWords_joinSp w maxW (pySplit t) [] [] (pySplit_ne_nil t)]
    simp

/-- Witness for C2 at a CJK input and a non-CJK input. -/
theorem C2_wrap_text_content_witness :
    (wrap_text (fun l => 10 * l.length) 25 "你好世界".toList).flatten = "你好世界".toList ∧
    joinSp (wrap_text (fun l => 10 * l.length) 25 "ab cd efghij".toList) =
      joinSp (pySplit "ab cd efghij".toList) :=
  ⟨(C2_wrap_text_content (fun l => 10 * l.length) 25 "你好世界".toList).1 (by decide),
   (C2_wrap_text_content (fun l => 10 * l.length) 25 "ab cd efghij".toList).2 (by decide)⟩

/-! Embedding of `src/procast/extractor.py`: the `Quote` data class, the
dictionary round-trip, `filter_quotes`, the prompt builder, and the parsing
of the model's JSON reply. Python float scores are modelled as `Rat`;
`timestamp` dicts as association lists `List (String × Rat)`. -/

structure Quote where
  text : String
  context : String
  category : String
  score : Rat
  timestamp : List (String × Rat)
  deriving DecidableEq, Repr

/-- A Python dict that may or may not carry each of the `Quote` keys
(`data.get(key, default)` is modelled by `Option.getD`). -/
structure QuoteDict where
  text? : Option String
  context? : Option String
  category? : Option String
  score? : Option Rat
  timestamp? : Option (List (String × Rat))
  deriving DecidableEq, Repr

/-- The `Quote.__init__` defaults together with `self.timestamp = timestamp or {}`
(a supplied empty dict and `None` both yield `{}`, i.e. `[]`). -/
def mkQuote (text : String) (context : String := "") (category : String := "")
    (score : Rat := 0) (timestamp : Option (List (String × Rat)) := none) : Quote :=
  { text := text, context := context, category := category, score := score,
    timestamp := timestamp.getD [] }

/-- `Quote.to_dict`: all five keys present. -/
def Quote.to_dict (q : Quote) : QuoteDict :=
  { text? := some q.text, context? := some q.context, category? := some q.category,
    score? := some q.score, timestamp? := some q.timestamp }

/-- `Quote.from_dict`: `data.get` with defaults `""`, `0.0`, `{}` per key. -/
def Quote.from_dict (d : QuoteDict) : Quote :=
  mkQuote (d.text?.getD "") (d.context?.getD "") (d.category?.getD "")
    (d.score?.getD 0) (some (d.timestamp?.getD []))

/-- **C9**: `Quote` serialization round-trips field by field, and
`from_dict` fills defaults `""`, `0.0`, `{}` for each missing key. -/
theorem C9_quote_roundtrip (q : Quote) (d : QuoteDict) :
    Quote.from_dict q.to_dict = q ∧
    (d.text? = none → (Quote.from_dict d).text = "") ∧
    (d.context? = none → (Quote.from_dict d).context = "") ∧
    (d.category? = none → (Quote.from_dict d).category = "") ∧
    (d.score? = none → (Quote.from_dict d).score = 0) ∧
    (d.timestamp? = none → (Quote.from_dict d).timestamp = []) := by
  refine ⟨rfl, ?_, ?_, ?_, ?_, ?_⟩ <;>
    · intro h
      simp [Quote.from_dict, mkQuote, h]

/-- Witness for C9 at a concrete quote and the all-missing dictionary. -/
theorem C9_quote_roundtrip_witness :
    Quote.from_dict (Quote.to_dict (mkQuote "金句" "ctx" "观点" (17/2) (some [("start", 3)]))) =
        mkQuote "金句" "ctx" "观点" (17/2) (some [("start", 3)]) ∧
    Quote.from_dict ⟨none, none, none, none, none⟩ = mkQuote "" "" "" 0 none := by
  have h := C9_quote_roundtrip (mkQuote "金句" "ctx" "观点" (17/2) (some [("start", 3)]))
    ⟨none, none, none, none, none⟩
  refine ⟨h.1, ?_⟩
  have h2 := h.2.1 rfl
  have h3 := h.2.2.1 rfl
  have h4 := h.2.2.2.1 rfl
  have h5 := h.2.2.2.2.1 rfl
  have h6 := h.2.2.2.2.2 rfl
  cases hq : Quote.from_dict ⟨none, none, none, none, none⟩
  rw [hq] at h2 h3 h4 h5 h6
  simp only at h2 h3 h4 h5 h6
  subst h2; subst h3; subst h4; subst h5; subst h6
  rfl

/-- The comparison realized by `filtered.sort(key=lambda q: q.score, reverse=True)`:
`a` may come before `b` when `b.score <= a.score`. -/
def scoreGe (a b : Quote) : Prop := b.score ≤ a.score

instance : DecidableRel scoreGe :=
  fun a b => inferInstanceAs (Decidable (b.score ≤ a.score))

instance : IsTotal Quote scoreGe := ⟨fun a b => le_total b.score a.score⟩

instance : IsTrans Quote scoreGe := ⟨fun _ _ _ hab hbc => le_trans hbc hab⟩

/-- `if min_score > 0: filtered = [q for q in filtered if q.score >= min_score]`. -/
def scoreFiltered (quotes : List Quote) (min_score : Rat) : List Quote :=
  if 0 < min_score then quotes.filter (fun q => min_score ≤ q.score) else quotes

/-- `if category: filtered = [q for q in filtered if q.category == category]`
(`None` and the empty string are both falsy, so both skip the filter). -/
def categoryFiltered (l : List Quote) (category : Option String) : List Quote :=
  match category with
  | some c => if c = "" then l else l.filter (fun q => q.category = c)
  | none => l

/-- Python list slicing `xs[:n]` for an integer `n` (a negative `n` counts
from the end; `List.take`'s clamping matches Python's). -/
def pySliceTo (xs : List Quote) (n : Int) : List Quote :=
  if 0 ≤ n then xs.take n.toNat else xs.take (xs.length - (-n).toNat)

/-- `if max_count: filtered = filtered[:max_count]` (`None` and `0` are falsy). -/
def truncated (l : List Quote) (max_count : Option Int) : List Quote :=
  match max_count with
  | some n => if n = 0 then l else pySliceTo l n
  | none => l

/-- `QuoteExtractor.filter_quotes`: score filter, category filter, stable
descending sort by score (Python's stable sort coincides with insertion sort
on this total relation), then truncation. -/
def filter_quotes (quotes : List Quote) (min_score : Rat := 0)
    (category : Option String := none) (max_count : Option Int := none) : List Quote :=
  truncated
    (List.insertionSort scoreGe (categoryFiltered (scoreFiltered quotes min_score) category))
    max_count

theorem scoreFiltered_sublist (quotes : List Quote) (s : Rat) :
    (scoreFiltered quotes s).Sublist quotes := by
  unfold scoreFiltered
  split
  · exact List.filter_sublist quotes
  · exact List.Sublist.refl quotes

theorem categoryFiltered_sublist (l : List Quote) (c : Option String) :
    (categoryFiltered l c).Sublist l := by
  unfold categoryFiltered
  split
  · split
    · exact List.Sublist.refl l
    · exact List.filter_sublist l
  · exact List.Sublist.refl l

theorem pySliceTo_sublist (l : List Quote) (n : Int) : (pySliceTo l n).Sublist l := by
  unfold pySliceTo
  split
  · exact List.take_sublist _ l
  · exact List.take_sublist _ l

theorem truncated_sublist (l : List Quote) (m : Option Int) :
    (truncated l m).Sublist l := by
  unfold truncated
  split
  · split
    · exact List.Sublist.refl l
    · exact pySliceTo_sublist l _
  · exact List.Sublist.refl l

theorem filter_quotes_mem_scoreFiltered {quotes : List Quote} {min_score : Rat}
    {category : Option String} {max_count : Option Int} {q : Quote}
    (hq : q ∈ filter_quotes quotes min_score category max_count) :
    q ∈ categoryFiltered (scoreFiltered quotes min_score) category := by
  have h1 := (truncated_sublist
    (List.insertionSort scoreGe (categoryFiltered (scoreFiltered quotes min_score) category))
    max_count).subset hq
  exact (List.perm_insertionSort scoreGe _).subset h1

/-- **C8 counterexample**: the claim fails at `category = ""`. Python's
`if category:` is falsy for the empty string, so no category filtering
happens, and a quote whose category is `"观点" ≠ ""` is returned. -/
theorem C8_filter_quotes_counterexample :
    mkQuote "t" "" "观点" 5 none ∈
        filter_quotes [mkQuote "t" "" "观点" 5 none] 0 (some "") none ∧
    (mkQuote "t" "" "观点" 5 none).category ≠ "" := by
  constructor
  · simp [filter_quotes, truncated, categoryFiltered, scoreFiltered, mkQuote,
      List.insertionSort, List.orderedInsert]
  · decide

/-- **C8 (amended)**: `filter_quotes` returns a sub-permutation of the input
sorted in descending score order; when `min_score > 0` every returned quote
scores at least `min_score`; when `min_score = 0` and no other filter is
active, every quote (any score, including negative) is kept; when a
**non-empty** category is given every returned quote has exactly that
category; a positive `max_count` bounds the result's length. -/
theorem C8_filter_quotes_amended (quotes : List Quote) (min_score : Rat)
    (category : Option String) (max_count : Option Int) :
    (filter_quotes quotes min_score category max_count).Subperm quotes ∧
    List.Sorted scoreGe (filter_quotes quotes min_score category max_count) ∧
    (0 < min_score →
      ∀ q ∈ filter_quotes quotes min_score category max_count, min_score ≤ q.score) ∧
    (min_score = 0 → category = none → max_count = none →
      (filter_quotes quotes min_score category max_count).Perm quotes) ∧
    (∀ c, category = some c → c ≠ "" →
      ∀ q ∈ filter_quotes quotes min_score category max_count, q.category = c) ∧
    (∀ n : Int, max_count = some n → 0 < n →
      (filter_quotes quotes min_score category max_count).length ≤ n.toNat) := by
  refine ⟨?_, ?_, ?_, ?_, ?_, ?_⟩
  · refine List.Subperm.trans
      ((truncated_sublist _ _).subperm.trans (List.perm_insertionSort scoreGe _).subperm) ?_
    exact ((categoryFiltered_sublist _ _).trans (scoreFiltered_sublist _ _)).subperm
  · exact List.Pairwise.sublist (truncated_sublist _ _)
      (List.sorted_insertionSort scoreGe _)
  · intro hpos q hq
    have h2 := (categoryFiltered_sublist (scoreFiltered quotes min_score) category).subset
      (filter_quotes_mem_scoreFiltered hq)
    rw [scoreFiltered, if_pos hpos] at h2
    exact of_decide_eq_true (List.mem_filter.1 h2).2
  · intro h0 hc hm
    subst h0; subst hc; subst hm
    exact List.perm_insertionSort scoreGe quotes
  · intro c hc hne q hq
    have h2 := filter_quotes_mem_scoreFiltered hq
    rw [hc, categoryFiltered, if_neg hne] at h2
    exact of_decide_eq_true (List.mem_filter.1 h2).2
  · intro n hn hpos
    rw [filter_quotes, hn, truncated, if_neg (by omega), pySliceTo,
      if_pos (le_of_lt hpos)]
    · exact le_trans (List.length_take_le _ _) (le_refl _)

/-- Witness for C8 (amended) at a concrete quote list with all filters active. -/
theorem C8_filter_quotes_amended_witness :
    (filter_quotes
        [mkQuote "a" "" "观点" 3 none, mkQuote "b" "" "观点" 9 none,
          mkQuote "c" "" "故事" 8 none]
        5 (some "观点") (some 1)).Subperm
      [mkQuote "a" "" "观点" 3 none, mkQuote "b" "" "观点" 9 none,
        mkQuote "c" "" "故事" 8 none] ∧
    (∀ q ∈ filter_quotes
        [mkQuote "a" "" "观点" 3 none, mkQuote "b" "" "观点" 9 none,
          mkQuote "c" "" "故事" 8 none]
        5 (some "观点") (some 1), (5 : Rat) ≤ q.score ∧ q.category = "观点") ∧
    (filter_quotes
        [mkQuote "a" "" "观点" 3 none, mkQuote "b" "" "观点" 9 none,
          mkQuote "c" "" "故事" 8 none]
        5 (some "观点") (some 1)).length ≤ 1 := by
  have h := C8_filter_quotes_amended
    [mkQuote "a" "" "观点" 3 none, mkQuote "b" "" "观点" 9 none,
      mkQuote "c" "" "故事" 8 none]
    5 (some "观点") (some 1)
  refine ⟨h.1, ?_, ?_⟩
  · intro q hq
    exact ⟨h.2.2.1 (by norm_num) q hq, h.2.2.2.2.1 "观点" rfl (by decide) q hq⟩
  · simpa using h.2.2.2.2.2 1 rfl (by norm_num)

/-- `QuoteExtractor._build_prompt`: the f-string, with `{text}`,
`{num_quotes}`, `{min_length}`, `{max_length}` and `{', '.join(categories)}`
interpolated (`\x7b` and `\x7d` are the literal braces of the JSON example). -/
def build_prompt (text : String) (num_quotes min_length max_length : Nat)
    (categories : List String) : String :=
  "请从以下文本中提取最有价值的金句。\n\n文本内容：\n" ++ text ++
    "\n\n要求：\n1. 提取约 " ++ toString num_quotes ++
    " 条最有价值的金句\n2. 每条金句长度在 " ++ toString min_length ++ "-" ++
    toString max_length ++
    " 字之间\n3. 金句应该具有启发性、观点性或实用性\n4. 为每条金句分配一个分类：" ++
    String.intercalate ", " categories ++
    "\n5. 为每条金句打分（0-10分），分数越高表示越有价值\n6. 提供简短的上下文说明（可选）\n\n请以 JSON 格式返回结果，格式如下：\n\x7b\n  \"quotes\": [\n    \x7b\n      \"text\": \"金句内容\",\n      \"context\": \"上下文说明\",\n      \"category\": \"分类\",\n      \"score\": 8.5\n    \x7d\n  ]\n\x7d\n"

/-- `a` occurs verbatim as a substring of `b`. -/
def substrOf (a b : String) : Prop := ∃ p q, b = p ++ a ++ q

/-- One entry of the model reply's `"quotes"` array; each key that
`QuoteExtractor.extract` reads with `item.get` is an optional field. -/
structure ReplyQuote where
  text? : Option String
  context? : Option String
  category? : Option String
  score? : Option Rat
  deriving DecidableEq, Repr

/-- The parsing loop of `QuoteExtractor.extract`: one `Quote` per entry of
`result.get("quotes", [])`, with `item.get` defaults `""` and `0.0`. -/
def parse_quotes (entries : List ReplyQuote) : List Quote :=
  entries.map fun item =>
    mkQuote (item.text?.getD "") (item.context?.getD "") (item.category?.getD "")
      (item.score?.getD 0) none

set_option maxRecDepth 8192 in
/-- **C6**: the prompt built by `QuoteExtractor._build_prompt` contains the
input text verbatim together with the fixed rubric (requested quote count,
length bounds, category list, 0–10 scoring instruction), and the parsing
loop of `QuoteExtractor.extract` returns exactly one `Quote` per entry of
the reply's `"quotes"` array, copying text/context/category/score with
defaults `""` and `0.0` for absent fields. -/
theorem C6_extract_prompt_and_parse (text : String)
    (num_quotes min_length max_length : Nat) (categories : List String)
    (entries : List ReplyQuote) :
    substrOf text (build_prompt text num_quotes min_length max_length categories) ∧
    substrOf ("提取约 " ++ toString num_quotes ++ " 条")
      (build_prompt text num_quotes min_length max_length categories) ∧
    substrOf ("长度在 " ++ toString min_length ++ "-" ++ toString max_length ++ " 字之间")
      (build_prompt text num_quotes min_length max_length categories) ∧
    substrOf ("分类：" ++ String.intercalate ", " categories)
      (build_prompt text num_quotes min_length max_length categories) ∧
    substrOf "打分（0-10分）"
      (build_prompt text num_quotes min_length max_length categories) ∧
    (parse_quotes entries).length = entries.length ∧
    (∀ (i : Nat) (item : ReplyQuote), entries[i]? = some item →
      (parse_quotes entries)[i]? =
        some (mkQuote (item.text?.getD "") (item.context?.getD "")
          (item.category?.getD "") (item.score?.getD 0) none)) := by
  refine ⟨?_, ?_, ?_, ?_, ?_, ?_, ?_⟩
  · refine ⟨"请从以下文本中提取最有价值的金句。\n\n文本内容：\n",
      "\n\n要求：\n1. 提取约 " ++ toString num_quotes ++
        " 条最有价值的金句\n2. 每条金句长度在 " ++ toString min_length ++ "-" ++
        toString max_length ++
        " 字之间\n3. 金句应该具有启发性、观点性或实用性\n4. 为每条金句分配一个分类：" ++
        String.intercalate ", " categories ++
        "\n5. 为每条金句打分（0-10分），分数越高表示越有价值\n6. 提供简短的上下文说明（可选）\n\n请以 JSON 格式返回结果，格式如下：\n\x7b\n  \"quotes\": [\n    \x7b\n      \"text\": \"金句内容\",\n      \"context\": \"上下文说明\",\n      \"category\": \"分类\",\n      \"score\": 8.5\n    \x7d\n  ]\n\x7d\n", ?_⟩
    rw [build_prompt]
    simp only [String.append_assoc]
  · have hs1 : ("\n\n要求：\n1. 提取约 " : String) = "\n\n要求：\n1. " ++ "提取约 " := by
      decide
    have hs2 : (" 条最有价值的金句\n2. 每条金句长度在 " : String) =
        " 条" ++ "最有价值的金句\n2. 每条金句长度在 " := by decide
    refine ⟨"请从以下文本中提取最有价值的金句。\n\n文本内容：\n" ++ text ++
      "\n\n要求：\n1. ",
      "最有价值的金句\n2. 每条金句长度在 " ++ toString min_length ++ "-" ++
        toString max_length ++
        " 字之间\n3. 金句应该具有启发性、观点性或实用性\n4. 为每条金句分配一个分类：" ++
        String.intercalate ", " categories ++
        "\n5. 为每条金句打分（0-10分），分数越高表示越有价值\n6. 提供简短的上下文说明（可选）\n\n请以 JSON 格式返回结果，格式如下：\n\x7b\n  \"quotes\": [\n    \x7b\n      \"text\": \"金句内容\",\n      \"context\": \"上下文说明\",\n      \"category\": \"分类\",\n      \"score\": 8.5\n    \x7d\n  ]\n\x7d\n", ?_⟩
    rw [build_prompt, hs1, hs2]
    simp only [String.append_assoc]
  · have hs3 : (" 条最有价值的金句\n2. 每条金句长度在 " : String) =
        " 条最有价值的金句\n2. 每条金句" ++ "长度在 " := by decide
    have hs4 : (" 字之间\n3. 金句应该具有启发性、观点性或实用性\n4. 为每条金句分配一个分类：" : String) =
        " 字之间" ++ "\n3. 金句应该具有启发性、观点性或实用性\n4. 为每条金句分配一个分类：" := by
      decide
    refine ⟨"请从以下文本中提取最有价值的金句。\n\n文本内容：\n" ++ text ++
      "\n\n要求：\n1. 提取约 " ++ toString num_quotes ++
      " 条最有价值的金句\n2. 每条金句",
      "\n3. 金句应该具有启发性、观点性或实用性\n4. 为每条金句分配一个分类：" ++
        String.intercalate ", " categories ++
        "\n5. 为每条金句打分（0-10分），分数越高表示越有价值\n6. 提供简短的上下文说明（可选）\n\n请以 JSON 格式返回结果，格式如下：\n\x7b\n  \"quotes\": [\n    \x7b\n      \"text\": \"金句内容\",\n      \"context\": \"上下文说明\",\n      \"category\": \"分类\",\n      \"score\": 8.5\n    \x7d\n  ]\n\x7d\n", ?_⟩
    rw [build_prompt, hs3, hs4]
    simp only [String.append_assoc]
  · have hs5 : (" 字之间\n3. 金句应该具有启发性、观点性或实用性\n4. 为每条金句分配一个分类：" : String) =
        " 字之间\n3. 金句应该具有启发性、观点性或实用性\n4. 为每条金句分配一个" ++ "分类：" := by
      decide
    refine ⟨"请从以下文本中提取最有价值的金句。\n\n文本内容：\n" ++ text ++
      "\n\n要求：\n1. 提取约 " ++ toString num_quotes ++
      " 条最有价值的金句\n2. 每条金句长度在 " ++ toString min_length ++ "-" ++
      toString max_length ++
      " 字之间\n3. 金句应该具有启发性、观点性或实用性\n4. 为每条金句分配一个",
      "\n5. 为每条金句打分（0-10分），分数越高表示越有价值\n6. 提供简短的上下文说明（可选）\n\n请以 JSON 格式返回结果，格式如下：\n\x7b\n  \"quotes\": [\n    \x7b\n      \"text\": \"金句内容\",\n      \"context\": \"上下文说明\",\n      \"category\": \"分类\",\n      \"score\": 8.5\n    \x7d\n  ]\n\x7d\n", ?_⟩
    rw [build_prompt, hs5]
    simp only [String.append_assoc]
  · have hs6 : ("\n5. 为每条金句打分（0-10分），分数越高表示越有价值\n6. 提供简短的上下文说明（可选）\n\n请以 JSON 格式返回结果，格式如下：\n\x7b\n  \"quotes\": [\n    \x7b\n      \"text\": \"金句内容\",\n      \"context\": \"上下文说明\",\n      \"category\": \"分类\",\n      \"score\": 8.5\n    \x7d\n  ]\n\x7d\n" : String) =
        "\n5. 为每条金句" ++ "打分（0-10分）" ++
          "，分数越高表示越有价值\n6. 提供简短的上下文说明（可选）\n\n请以 JSON 格式返回结果，格式如下：\n\x7b\n  \"quotes\": [\n    \x7b\n      \"text\": \"金句内容\",\n      \"context\": \"上下文说明\",\n      \"category\": \"分类\",\n      \"score\": 8.5\n    \x7d\n  ]\n\x7d\n" := by
      decide
    refine ⟨"请从以下文本中提取最有价值的金句。\n\n文本内容：\n" ++ text ++
      "\n\n要求：\n1. 提取约 " ++ toString num_quotes ++
      " 条最有价值的金句\n2. 每条金句长度在 " ++ toString min_length ++ "-" ++
      toString max_length ++
      " 字之间\n3. 金句应该具有启发性、观点性或实用性\n4. 为每条金句分配一个分类：" ++
      String.intercalate ", " categories ++ "\n5. 为每条金句",
      "，分数越高表示越有价值\n6. 提供简短的上下文说明（可选）\n\n请以 JSON 格式返回结果，格式如下：\n\x7b\n  \"quotes\": [\n    \x7b\n      \"text\": \"金句内容\",\n      \"context\": \"上下文说明\",\n      \"category\": \"分类\",\n      \"score\": 8.5\n    \x7d\n  ]\n\x7d\n", ?_⟩
    rw [build_prompt, hs6]
    simp only [String.append_assoc]
  · exact List.length_map entries _
  · intro i item hi
    rw [parse_quotes, List.getElem?_map, hi]
    rfl

/-- Witness for C6 at a concrete transcript, rubric, and reply entry. -/
theorem C6_extract_prompt_and_parse_witness :
    substrOf "保持学习能力是最重要的竞争力"
      (build_prompt "保持学习能力是最重要的竞争力" 3 10 200 ["启发", "观点"]) ∧
    (parse_quotes [⟨some "金句A", none, some "观点", some (17/2)⟩])[0]? =
      some (mkQuote "金句A" "" "观点" (17/2) none) := by
  have h := C6_extract_prompt_and_parse "保持学习能力是最重要的竞争力" 3 10 200
    ["启发", "观点"] [⟨some "金句A", none, some "观点", some (17/2)⟩]
  exact ⟨h.1, h.2.2.2.2.2.2 0 ⟨some "金句A", none, some "观点", some (17/2)⟩ rfl⟩

/-! Embedding of `src/procast/config.py`: JSON-like configuration values,
the default configuration, and `Config.get`'s dotted-path lookup. -/

inductive PyVal where
  | str (s : String)
  | num (q : Rat)
  | pyNone
  | dict (entries : List (String × PyVal))

/-- Python dict key lookup (`k in value` / `value[k]`). -/
def dictLookup : List (String × PyVal) → String → Option PyVal
  | [], _ => Option.none
  | (k2, v) :: rest, k => if k2 = k then some v else dictLookup rest k

/-- The loop of `Config.get`: walk the key path, descending only through
dicts that contain the component, else signal absence. -/
def getPath : PyVal → List String → Option PyVal
  | v, [] => some v
  | PyVal.dict es, k :: ks =>
    match dictLookup es k with
    | some v => getPath v ks
    | Option.none => Option.none
  | _, _ :: _ => Option.none

/-- Python `key.split(".")`: dot-separated components (never empty, keeps
empty components, one component when there is no dot). -/
def splitDotAux : List Char → List Char → List String
  | [], acc => [⟨acc.reverse⟩]
  | c :: cs, acc =>
    if c = '.' then ⟨acc.reverse⟩ :: splitDotAux cs []
    else splitDotAux cs (c :: acc)

/-- `Config.get(key, default)`: split the key on `"."`, traverse, and fall
back to `default` on the first absent component or non-dict value. -/
def Config.get (cfg : PyVal) (key : String) (dflt : PyVal) : PyVal :=
  match getPath cfg (splitDotAux key.data []) with
  | some v => v
  | Option.none => dflt

/-- Modelled from the spec: "configuration is a flat key-value object" whose
`get` "is a direct single-level lookup returning the stored value or the
supplied default when the key is absent". Stated for comparison against
`Config.get`. -/
def specFlatGet (cfg : PyVal) (key : String) (dflt : PyVal) : PyVal :=
  match cfg with
  | PyVal.dict es =>
    match dictLookup es key with
    | some v => v
    | Option.none => dflt
  | _ => dflt

/-- `Config._default_config`. -/
def default_config : PyVal :=
  PyVal.dict
    [("llm", PyVal.dict
        [("provider", PyVal.str "openai"),
         ("model", PyVal.str "gpt-4-turbo-preview"),
         ("api_key", PyVal.str ""),
         ("base_url", PyVal.str "https://api.openai.com/v1"),
         ("temperature", PyVal.num (7/10)),
         ("max_tokens", PyVal.num 2000)]),
     ("whisper", PyVal.dict
        [("model", PyVal.str "base"), ("language", PyVal.str "zh")]),
     ("card", PyVal.dict
        [("width", PyVal.num 1080), ("height", PyVal.num 1920),
         ("background_color", PyVal.str "#1a1a2e"),
         ("text_color", PyVal.str "#ffffff"),
         ("accent_color", PyVal.str "#e94560"),
         ("font_path", PyVal.pyNone),
         ("font_size", PyVal.num 48), ("padding", PyVal.num 100)]),
     ("output", PyVal.dict
        [("transcript_dir", PyVal.str "output/transcripts"),
         ("quotes_dir", PyVal.str "output/quotes"),
         ("cards_dir", PyVal.str "output/cards")])]

def PyVal.isDict : PyVal → Bool
  | PyVal.dict _ => true
  | _ => false

/-- **C4 counterexample**: the configuration is not flat and `Config.get` is
not a single-level lookup: the key `"llm"` holds a nested dict, and the
dotted key `"llm.model"` succeeds under the code's multi-level traversal
while the spec's single-level lookup would return the default. -/
theorem C4_config_counterexample :
    Config.get default_config "llm.model" (PyVal.str "DEFAULT") =
        PyVal.str "gpt-4-turbo-preview" ∧
    specFlatGet default_config "llm.model" (PyVal.str "DEFAULT") =
        PyVal.str "DEFAULT" ∧
    (Config.get default_config "llm" (PyVal.str "DEFAULT")).isDict = true :=
  ⟨rfl, rfl, rfl⟩

/-- **C4 (amended)**: the configuration is a nested key-value object; every
top-level section key maps to a sub-dictionary of scalars; `Config.get`
traverses the dot-separated key path level by level and returns the stored
value, or the supplied default when any path component is absent; the module
constructs a single process-wide instance `config = Config()`. -/
theorem C4_config_amended (dflt : PyVal) :
    Config.get default_config "llm.model" dflt = PyVal.str "gpt-4-turbo-preview" ∧
    Config.get default_config "llm.temperature" dflt = PyVal.num (7/10) ∧
    Config.get default_config "card.width" dflt = PyVal.num 1080 ∧
    Config.get default_config "output.cards_dir" dflt = PyVal.str "output/cards" ∧
    Config.get default_config "llm.missing" dflt = dflt ∧
    Config.get default_config "nope" dflt = dflt ∧
    (Config.get default_config "llm" dflt).isDict = true ∧
    (Config.get default_config "card" dflt).isDict = true :=
  ⟨rfl, rfl, rfl, rfl, rfl, rfl, rfl, rfl⟩

/-! Embedding of `CardGenerator.generate` / `generate_batch`
(`src/procast/card_generator.py`). The drawing calls and the PNG write are
deterministic functions of the chosen template, the text arguments, and the
output path, so a rendered card is modelled by that data; `generate`'s
return value is the `path` field. -/

inductive TemplateKind where
  | minimal
  | elegant
  | modern
  deriving DecidableEq, Repr

/-- The `if style == ... elif ... else` dispatch in `CardGenerator.generate`
(any unrecognized style falls through to `_draw_minimal_card`). -/
def styleTemplate (style : String) : TemplateKind :=
  if style = "minimal" then TemplateKind.minimal
  else if style = "elegant" then TemplateKind.elegant
  else if style = "modern" then TemplateKind.modern
  else TemplateKind.minimal

structure RenderedCard where
  template : TemplateKind
  quoteText : String
  title : String
  subtitle : String
  path : String
  deriving DecidableEq, Repr

/-- `CardGenerator.generate`: dispatch on style, draw, save to
`output_path`, return the path. -/
def CardGenerator.generate (quote_text : String) (title : String)
    (subtitle : String) (output_path : String) (style : String) : RenderedCard :=
  { template := styleTemplate style, quoteText := quote_text, title := title,
    subtitle := subtitle, path := output_path }

/-- An element of the `quotes` list passed to `generate_batch`: a `Quote`
object (`hasattr(quote, 'text')`), a dict, or anything else (`str(quote)`). -/
inductive BatchItem where
  | quoteObj (q : Quote)
  | dictItem (text? : Option String) (category? : Option String)
  | other (s : String)
  deriving DecidableEq, Repr

/-- The quote text drawn for a batch item. -/
def itemText : BatchItem → String
  | BatchItem.quoteObj q => q.text
  | BatchItem.dictItem t? _ => t?.getD ""
  | BatchItem.other s => s

/-- The subtitle drawn for a batch item (`category`, defaulting to `''`). -/
def itemSubtitle : BatchItem → String
  | BatchItem.quoteObj q => q.category
  | BatchItem.dictItem _ c? => c?.getD ""
  | BatchItem.other _ => ""

/-- Python `f"{i:03d}"` for a natural number. -/
def pad3 (n : Nat) : String :=
  if n < 10 then "00" ++ toString n
  else if n < 100 then "0" ++ toString n
  else toString n

/-- `CardGenerator.generate_batch`: `enumerate(quotes, 1)`, one card named
`card_{i:03d}.png` under `output_dir` per input quote, in order. -/
def generate_batch (quotes : List BatchItem) (output_dir : String)
    (title : String) (style : String) : List RenderedCard :=
  quotes.enum.map fun p =>
    CardGenerator.generate (itemText p.2) title (itemSubtitle p.2)
      (output_dir ++ "/card_" ++ pad3 (p.1 + 1) ++ ".png") style

/-- The list `output_paths` returned by `generate_batch`. -/
def generate_batch_paths (quotes : List BatchItem) (output_dir : String)
    (title : String) (style : String) : List String :=
  (generate_batch quotes output_dir title style).map RenderedCard.path

/-- **C3**: `generate_batch` renders exactly one card per input quote, named
`card_001.png, card_002.png, ...` in input order under the output directory,
and returns the list of these paths, one per input quote. -/
theorem C3_generate_batch_paths (quotes : List BatchItem) (output_dir : String)
    (title : String) (style : String) :
    (generate_batch_paths quotes output_dir title style).length = quotes.length ∧
    (generate_batch quotes output_dir title style).length = quotes.length ∧
    (∀ (i : Nat) (item : BatchItem), quotes[i]? = some item →
      (generate_batch quotes output_dir title style)[i]? =
        some (CardGenerator.generate (itemText item) title (itemSubtitle item)
          (output_dir ++ "/card_" ++ pad3 (i + 1) ++ ".png") style)) ∧
    (∀ (i : Nat), i < quotes.length →
      (generate_batch_paths quotes output_dir title style)[i]? =
        some (output_dir ++ "/card_" ++ pad3 (i + 1) ++ ".png")) := by
  refine ⟨?_, ?_, ?_, ?_⟩
  · simp [generate_batch_paths, generate_batch]
  · simp [generate_batch]
  · intro i item hi
    rw [generate_batch, List.getElem?_map, List.getElem?_enum]
    rw [hi]
    rfl
  · intro i hlt
    rcases List.getElem?_eq_some.2 ⟨hlt, rfl⟩ with hi
    rw [generate_batch_paths, List.getElem?_map, generate_batch,
      List.getElem?_map, List.getElem?_enum, hi]
    rfl

/-- Witness for C3 on a concrete two-element batch. -/
theorem C3_generate_batch_paths_witness :
    (generate_batch_paths
        [BatchItem.other "甲", BatchItem.dictItem (some "乙") none]
        "output/cards" "播客金句" "minimal").length = 2 ∧
    (generate_batch_paths
        [BatchItem.other "甲", BatchItem.dictItem (some "乙") none]
        "output/cards" "播客金句" "minimal")[1]? =
      some "output/cards/card_002.png" := by
  have h := C3_generate_batch_paths
    [BatchItem.other "甲", BatchItem.dictItem (some "乙") none]
    "output/cards" "播客金句" "minimal"
  exact ⟨h.1, by rw [h.2.2.2 1 (by decide)]; decide⟩

/-- **C10**: for every style other than `"elegant"` and `"modern"` (any
invalid string included), `CardGenerator.generate` renders the minimal
template with the same arguments and output path, exactly as if
`style="minimal"` had been passed. -/
theorem C10_unknown_style_minimal (quote_text title subtitle output_path style : String)
    (h1 : style ≠ "elegant") (h2 : style ≠ "modern") :
    CardGenerator.generate quote_text title subtitle output_path style =
      CardGenerator.generate quote_text title subtitle output_path "minimal" := by
  unfold CardGenerator.generate styleTemplate
  by_cases h : style = "minimal"
  · rw [h]
  · rw [if_neg h, if_neg h1, if_neg h2, if_pos rfl]

/-- Witness for C10 at an arbitrary invalid style string. -/
theorem C10_unknown_style_minimal_witness :
    CardGenerator.generate "金句" "播客金句" "观点" "out/card.png" "fancy" =
      CardGenerator.generate "金句" "播客金句" "观点" "out/card.png" "minimal" :=
  C10_unknown_style_minimal "金句" "播客金句" "观点" "out/card.png" "fancy"
    (by decide) (by decide)

/-! Embedding of `AudioTranscriber.transcribe` (`src/procast/transcriber.py`).
The external Whisper model's result is a parameter; file writes are modelled
as a list of write actions. -/

/-- One segment of the Whisper result (`end` is a Lean keyword, so the end
time is called `stop`). -/
structure WhisperSegment where
  start : Rat
  stop : Rat
  text : String
  deriving DecidableEq, Repr

structure WhisperResult where
  text : String
  segments : List WhisperSegment
  deriving DecidableEq, Repr

structure WriteAction where
  path : String
  content : String
  deriving DecidableEq, Repr

/-- `pathlib.PurePath.with_suffix` stem: the name's last dot starts a suffix
only when it is neither the first nor the last character of the final path
component; that suffix is dropped. -/
def stripExt (p : String) : String :=
  match (p.data.reverse.takeWhile (fun c => c != '/')).findIdx? (fun c => c == '.') with
  | some j =>
    if 0 < j ∧ j + 1 < (p.data.reverse.takeWhile (fun c => c != '/')).length then
      ⟨((p.data.reverse.takeWhile (fun c => c != '/')).drop (j + 1) ++
          p.data.reverse.dropWhile (fun c => c != '/')).reverse⟩
    else p
  | Option.none => p

/-- `output_path.with_suffix(suffix)`. -/
def withSuffix (p : String) (suffix : String) : String := stripExt p ++ suffix

/-- The `json.dump(result, ...)` content: a rendering of the full result,
segments (with their timestamps) included. -/
def jsonOfSegment (s : WhisperSegment) : String :=
  "\x7b\"start\": " ++ toString s.start ++ ", \"end\": " ++ toString s.stop ++
    ", \"text\": \"" ++ s.text ++ "\"\x7d"

def jsonOfResult (r : WhisperResult) : String :=
  "\x7b\"text\": \"" ++ r.text ++ "\", \"segments\": [" ++
    String.intercalate ", " (r.segments.map jsonOfSegment) ++ "]\x7d"

/-- `AudioTranscriber.transcribe`: raise `FileNotFoundError` for a missing
audio file; otherwise run the model, and when an output path is given write
the text to the `.txt` sibling and the JSON result to the `.json` sibling;
return the model's result. -/
def AudioTranscriber.transcribe (audio_exists : Bool) (result : WhisperResult)
    (output_path : Option String) : Except String (WhisperResult × List WriteAction) :=
  if audio_exists = false then Except.error "FileNotFoundError"
  else
    match output_path with
    | Option.none => Except.ok (result, [])
    | some p =>
      Except.ok (result,
        [⟨withSuffix p ".txt", result.text⟩, ⟨withSuffix p ".json", jsonOfResult result⟩])

/-- **C7**: for every existing audio file, with an output path supplied the
transcriber writes the recognized text to the `.txt` file and the full
result (segments included) as JSON to the `.json` file at the same stem;
with `output_path=None` it writes nothing; in both cases it returns the
speech model's result unchanged. -/
theorem C7_transcribe_outputs (result : WhisperResult) (p : String)
    (audio_exists : Bool) (hex : audio_exists = true) :
    AudioTranscriber.transcribe audio_exists result (some p) =
      Except.ok (result,
        [⟨stripExt p ++ ".txt", result.text⟩,
         ⟨stripExt p ++ ".json", jsonOfResult result⟩]) ∧
    AudioTranscriber.transcribe audio_exists result Option.none =
      Except.ok (result, []) := by
  subst hex
  exact ⟨rfl, rfl⟩

/-- Witness for C7 at a concrete result and output path, pinning the
computed `.txt` and `.json` write paths. -/
theorem C7_transcribe_outputs_witness :
    AudioTranscriber.transcribe true ⟨"你好", [⟨0, 3/2, "你好"⟩]⟩
        (some "output/transcript.txt") =
      Except.ok (⟨"你好", [⟨0, 3/2, "你好"⟩]⟩,
        [⟨"output/transcript.txt", "你好"⟩,
         ⟨"output/transcript.json", jsonOfResult ⟨"你好", [⟨0, 3/2, "你好"⟩]⟩⟩]) ∧
    AudioTranscriber.transcribe true ⟨"你好", [⟨0, 3/2, "你好"⟩]⟩ Option.none =
      Except.ok (⟨"你好", [⟨0, 3/2, "你好"⟩]⟩, []) := by
  have h := C7_transcribe_outputs ⟨"你好", [⟨0, 3/2, "你好"⟩]⟩ "output/transcript.txt" true rfl
  have hp : stripExt "output/transcript.txt" = "output/transcript" := by decide
  have h1 : ("output/transcript" : String) ++ ".txt" = "output/transcript.txt" := by decide
  have h2 : ("output/transcript" : String) ++ ".json" = "output/transcript.json" := by decide
  refine ⟨?_, h.2⟩
  rw [h.1, hp, h1, h2]

/-! Embedding of the CLI commands (`src/procast/cli.py`): each stage outcome
is an `Except`, and a command's observable recovery behaviour is the
process exit code (0 = success, 1 = `typer.Exit(1)`). -/

/-- How many `try/except` blocks each CLI command body contains, read off
`cli.py` (`transcribe` lines 45–51, `extract` 80–112, `generate` 167–178,
`pipeline` 208–212, 224–240 and 256–265). -/
def tryExceptBlocks : List (String × Nat) :=
  [("transcribe", 1), ("extract", 1), ("generate", 1), ("pipeline", 3)]

/-- CLI `transcribe`: a single try/except around the transcription; exit
code 1 on exception. -/
def transcribeCmd (res : Except String (WhisperResult × List WriteAction)) : Nat :=
  match res with
  | Except.ok _ => 0
  | Except.error _ => 1

/-- CLI `extract`: a single try/except around extraction, filtering and
display; exit code 1 on exception. -/
def extractCmd (res : Except String (List Quote)) : Nat :=
  match res with
  | Except.ok _ => 0
  | Except.error _ => 1

/-- CLI `generate`: the single try/except wraps only the `generate_batch`
call (loading and filtering happen before it). -/
def generateCmd (res : Except String (List String)) : Nat :=
  match res with
  | Except.ok _ => 0
  | Except.error _ => 1

/-- CLI `pipeline`: three try/except blocks, one per stage, each exiting 1
on exception. When the score filter leaves no quotes the code raises
`typer.Exit(0)` inside the second try; click's `Exit` derives from
`RuntimeError`, so the broad `except Exception` catches it and exits 1. -/
def pipelineCmd (tRes : Except String WhisperResult)
    (eRes : Except String (List Quote)) (min_score : Rat)
    (gRes : List Quote → Except String (List String)) : Nat :=
  match tRes with
  | Except.error _ => 1
  | Except.ok _ =>
    match eRes with
    | Except.error _ => 1
    | Except.ok qs =>
      if (filter_quotes qs min_score Option.none Option.none).isEmpty then 1
      else
        match gRes (filter_quotes qs min_score Option.none Option.none) with
        | Except.error _ => 1
        | Except.ok _ => 0

/-- **C5 counterexample**: the `pipeline` command contains three try/except
blocks, not a single one. -/
theorem C5_cli_counterexample : ("pipeline", 3) ∈ tryExceptBlocks ∧ (3 : Nat) ≠ 1 := by
  decide

/-- **C5 (amended)**: `transcribe`, `extract` and `generate` each contain a
single try/except around their work, while `pipeline` wraps each of its
three stages in its own try/except; in every command, whenever a wrapped
stage raises, the command prints a failure message and exits with code 1. -/
theorem C5_cli_amended (e : String) (r : WhisperResult) (qs : List Quote)
    (ms : Rat) (gRes : List Quote → Except String (List String)) :
    (∀ cmd n, (cmd, n) ∈ tryExceptBlocks →
      (cmd = "pipeline" → n = 3) ∧ (cmd ≠ "pipeline" → n = 1)) ∧
    transcribeCmd (Except.error e) = 1 ∧
    extractCmd (Except.error e) = 1 ∧
    generateCmd (Except.error e) = 1 ∧
    pipelineCmd (Except.error e) (Except.ok qs) ms gRes = 1 ∧
    pipelineCmd (Except.ok r) (Except.error e) ms gRes = 1 ∧
    ((filter_quotes qs ms Option.none Option.none).isEmpty = false →
      gRes (filter_quotes qs ms Option.none Option.none) = Except.error e →
      pipelineCmd (Except.ok r) (Except.ok qs) ms gRes = 1) := by
  refine ⟨?_, rfl, rfl, rfl, rfl, rfl, ?_⟩
  · intro cmd n hmem
    fin_cases hmem <;>
      exact ⟨fun h => by first | rfl | exact absurd h (by decide),
        fun h => by first | rfl | exact absurd rfl h⟩
  · intro hne hg
    rw [pipelineCmd]
    rw [if_neg (by rw [hne]; exact Bool.false_ne_true)]
    rw [hg]

/-- Witness for C5 (amended) at concrete stage failures. -/
theorem C5_cli_amended_witness :
    pipelineCmd (Except.error "boom") (Except.ok []) 7 (fun _ => Except.ok []) = 1 ∧
    pipelineCmd (Except.ok ⟨"t", []⟩)
        (Except.ok [mkQuote "q" "" "观点" 9 none]) 7
        (fun _ => Except.error "draw failed") = 1 := by
  have h := C5_cli_amended "boom" ⟨"t", []⟩ [mkQuote "q" "" "观点" 9 none] 7
    (fun _ => Except.error "draw failed")
  have h2 := C5_cli_amended "draw failed" ⟨"t", []⟩ [mkQuote "q" "" "观点" 9 none] 7
    (fun _ => Except.error "draw failed")
  exact ⟨h.2.2.2.2.1, h2.2.2.2.2.2.2 (by decide) rfl⟩

end Procast
